/-
Verification of the room-encryption core of hydrogen-web
(src/matrix/e2ee/RoomEncryption.js) against its natural-language
specification.

The JavaScript code is shallowly embedded as pure Lean functions.  External
collaborators (the megolm encryption/decryption engines, the device tracker,
the storage layer, the key-backup client and the home-server API) are modelled
as oracle parameters: their observable answers are inputs, and the side
effects the orchestrator performs on them are recorded in explicit action
traces, in program order.  Asynchronous awaits suspend a single-threaded
cooperative task, so a method's behaviour is a deterministic function of its
inputs and oracle answers; traces record the sequence of effects exactly as
the source performs them.
-/
import Mathlib

set_option autoImplicit false

/-- Modelled from the spec: the MEGOLM_ALGORITHM constant imported from
src/matrix/e2ee/common.js (not under src/); the glossary defines Megolm as the
group-ratchet algorithm for room messages, and only the constant's identity is
used by the code under verification. -/
def MEGOLM_ALGORITHM : String := "m.megolm.v1.aes-sha2"

/-- Modelled from the spec: DecryptionSource from src/matrix/e2ee/common.js
(not under src/), a closed tagged variant Sync / Timeline(backfill) / Retry
(spec section 9). -/
inductive DecryptionSource where
  | Sync
  | Timeline
  | Retry
deriving DecidableEq, Repr

/-- A JavaScript error as observed by the catch handler of
RoomEncryption._requestMissingSessionFromBackup: its name and optional
errcode field (HomeServerError carries a Matrix errcode). -/
structure JsError where
  name : String
  errcode : Option String
deriving DecidableEq, Repr

/-- A backup record as returned by sessionBackup.getSession: the fields the
orchestrator reads.  Absent fields are none (JavaScript undefined). -/
structure BackupSessionRecord where
  algorithm : Option String
  sender_key : Option String
deriving DecidableEq, Repr

/-- The parsed room key produced by megolmDecryption.roomKeyFromBackup; the
orchestrator only reads its eventIds property (event ids to retry). -/
structure RoomKeyFromBackup where
  eventIds : List String
deriving DecidableEq, Repr

/-- Log levels relevant to the orchestrator: the default level of a log item,
Warn (log.level.Warn) and Error (log.level.Error). -/
inductive LogLevel where
  | Base
  | Warn
  | Error
deriving DecidableEq, Repr

/-- Observable actions of the decryption-results / backup-recovery code paths
of RoomEncryption, in program order. -/
inductive Act where
  /-- this._notifyMissingMegolmSession() -/
  | notifyMissingMegolmSession
  /-- await this._sessionBackup.getSession(roomId, sessionId, log) — network -/
  | getSession (senderKey sessionId : String)
  /-- await this._storage.readWriteTxn([inboundGroupSessions]) — storage -/
  | openReadWriteTxn
  /-- await this._megolmDecryption.writeRoomKey(roomKey, txn) — storage write -/
  | writeRoomKey
  /-- txn.abort() -/
  | abortTxn
  /-- await txn.complete() — storage commit -/
  | completeTxn
  /-- await this._room.notifyRoomKey(roomKey, retryEventIds, log) -/
  | notifyRoomKey (retryEventIds : List String)
  /-- await this._megolmDecryption.addMissingKeyEventIds(roomId, senderKey, sessionId, eventIds, txn) -/
  | addMissingKeyEventIds (senderKey sessionId : String) (eventIds : List String)
  /-- await this._clock.createTimeout(ms).elapsed() -/
  | wait (ms : Nat)
  /-- the detached task reads this._disposed (recorded value attached) -/
  | checkDisposed (value : Bool)
  /-- await this._storage.readTxn([inboundGroupSessions]) — storage -/
  | openReadTxn
  /-- await this._megolmDecryption.hasSession(roomId, senderKey, sessionId, txn) — storage read -/
  | hasSession (senderKey sessionId : String)
deriving DecidableEq, Repr

/-- Everything _requestMissingSessionFromBackup makes observable: its action
trace and the log state it leaves behind (log level, the not_found flag, the
wrong_sender_key item, the unknown-algorithm item, whether log.error was
assigned).  The method itself never rethrows: its outer catch swallows every
failure. -/
structure BackupRequestResult where
  acts : List Act
  level : LogLevel
  not_found_set : Bool
  wrong_sender_key : Option String
  unknown_algorithm : Option String
  error_set : Bool
deriving DecidableEq, Repr

/-- The catch handler of RoomEncryption._requestMissingSessionFromBackup
(RoomEncryption.js lines 243-250), exactly as written in the source:
if NOT (err.name === HomeServerError and err.errcode === M_NOT_FOUND) it sets
the not_found log item, otherwise it assigns log.error and raises the log
level to Error. -/
def backupCatch (err : JsError) (r : BackupRequestResult) : BackupRequestResult :=
  if ¬(err.name = "HomeServerError" ∧ err.errcode = some "M_NOT_FOUND") then
    { r with not_found_set := true }
  else
    { r with error_set := true, level := LogLevel.Error }

/-- RoomEncryption._requestMissingSessionFromBackup (RoomEncryption.js lines
197-251).  Oracle parameters: sessionBackup is the truthiness of
this._sessionBackup; getSessionResult is the outcome of the awaited backup
fetch (an error models a throw); roomKeyFromBackup is the engine's parse
result (none models a falsy return); writeRoomKeyResult is the outcome of the
awaited store write (ok b returns keyIsBestOne = b, an error models a throw,
which the source answers by txn.abort() and rethrowing into the outer catch). -/
def requestMissingSessionFromBackup
    (sessionBackup : Bool) (senderKey sessionId : String)
    (getSessionResult : Except JsError (Option BackupSessionRecord))
    (roomKeyFromBackup : Option RoomKeyFromBackup)
    (writeRoomKeyResult : Except JsError Bool) : BackupRequestResult :=
  let base : BackupRequestResult :=
    { acts := []
      level := LogLevel.Base
      not_found_set := false
      wrong_sender_key := none
      unknown_algorithm := none
      error_set := false }
  if ¬sessionBackup then
    { base with acts := [Act.notifyMissingMegolmSession] }
  else
    match getSessionResult with
    | Except.error err =>
        backupCatch err { base with acts := [Act.getSession senderKey sessionId] }
    | Except.ok sessionOpt =>
      let acts0 := [Act.getSession senderKey sessionId]
      match sessionOpt with
      | none => { base with acts := acts0 }
      | some s =>
        if s.algorithm = some MEGOLM_ALGORITHM then
          if s.sender_key ≠ some senderKey then
            { base with
              acts := acts0
              level := LogLevel.Warn
              wrong_sender_key := s.sender_key }
          else
            match roomKeyFromBackup with
            | none => { base with acts := acts0 }
            | some rk =>
              match writeRoomKeyResult with
              | Except.error err =>
                  backupCatch err
                    { base with
                      acts := acts0 ++ [Act.openReadWriteTxn, Act.writeRoomKey, Act.abortTxn] }
              | Except.ok best =>
                  let acts1 := acts0 ++ [Act.openReadWriteTxn, Act.writeRoomKey, Act.completeTxn]
                  if best then
                    { base with acts := acts1 ++ [Act.notifyRoomKey rk.eventIds] }
                  else
                    { base with acts := acts1 }
        else
          match s.algorithm with
          | some a =>
              if a ≠ "" then { base with acts := acts0, unknown_algorithm := some a }
              else { base with acts := acts0 }
          | none => { base with acts := acts0 }

/-- An incoming timeline event as read by RoomEncryption.prepareDecryptAll:
its event_id, the truthiness of event.redacted_because and of
event.unsigned?.redacted_because, and event.content?.algorithm (none when the
content or the algorithm field is absent). -/
structure JsEvent where
  event_id : String
  redacted_because : Bool
  unsigned_redacted_because : Bool
  algorithm : Option String
deriving DecidableEq, Repr

/-- The filtering loop of RoomEncryption.prepareDecryptAll (RoomEncryption.js
lines 101-112), exactly as written in the source: walks the input events in
order; an event with a truthy redacted_because (direct or under unsigned) is
skipped; an event whose content algorithm is not MEGOLM_ALGORITHM gets an
"Unsupported algorithm" entry added to the errors map; every non-redacted
event is pushed onto validEvents (the list later handed to
megolmDecryption.prepareDecryptAll).  Returns (errors, validEvents). -/
def prepareDecryptAllFilter (events : List JsEvent) :
    List (String × String) × List JsEvent :=
  events.foldl
    (fun acc e =>
      if e.redacted_because || e.unsigned_redacted_because then acc
      else
        let errs :=
          if e.algorithm ≠ some MEGOLM_ALGORITHM then
            acc.1 ++ [(e.event_id, "Unsupported algorithm")]
          else acc.1
        (errs, acc.2 ++ [e]))
    ([], [])

/-- Actions of RoomEncryption._shareNewRoomKey, in program order. -/
inductive ShareAct where
  /-- await this._storage.readWriteTxn([operations]) -/
  | openOperationsReadWriteTxn
  /-- txn.operations.add(operation) via _writeRoomKeyShareOperation; the
  payload records operation.userIds (none models the null sentinel) -/
  | addOperation (userIds : Option (List String))
  /-- writeOpTxn.abort() -/
  | abortTxn
  /-- await writeOpTxn.complete() -/
  | completeTxn
  /-- await this._processShareRoomKeyOperation(operation, hsApi, log) — the
  network phase begins here -/
  | processOperation
deriving DecidableEq, Repr

/-- RoomEncryption._shareNewRoomKey (RoomEncryption.js lines 294-307), exactly
as written in the source: opens a read-write transaction on the operations
store, writes the share operation with userIds = null through
_writeRoomKeyShareOperation (aborting the transaction and rethrowing if that
write throws, which the oracle writeThrows models), and then calls
_processShareRoomKeyOperation directly.  Returns the action trace and whether
the call rethrows. -/
def shareNewRoomKey (writeThrows : Bool) : List ShareAct × Bool :=
  if writeThrows then
    ([ShareAct.openOperationsReadWriteTxn, ShareAct.abortTxn], true)
  else
    ([ShareAct.openOperationsReadWriteTxn, ShareAct.addOperation none,
      ShareAct.processOperation], false)

/-- An encrypted event as seen by the missing-session bookkeeping: its
event_id and the sender_key and session_id of its content. -/
structure SyncEvent where
  event_id : String
  sender_key : String
  session_id : String
deriving DecidableEq, Repr

/-- A group of events sharing one (sender key, session id), as produced by
groupEventsBySession. -/
structure EventGroup where
  senderKey : String
  sessionId : String
  events : List SyncEvent
deriving DecidableEq, Repr

/-- Modelled from the spec: groupEventsBySession from
src/matrix/e2ee/megolm/decryption/utils.js (not under src/); spec section 3
(MissingSessionEvent group) says events are grouped by (sender key,
session id).  Groups appear in first-occurrence order and events keep their
input order inside their group. -/
def groupEventsBySession (events : List SyncEvent) : List EventGroup :=
  events.foldl
    (fun gs e =>
      if gs.any (fun g => g.senderKey == e.sender_key && g.sessionId == e.session_id) then
        gs.map (fun g =>
          if g.senderKey == e.sender_key && g.sessionId == e.session_id then
            { g with events := g.events ++ [e] }
          else g)
      else
        gs ++ [{ senderKey := e.sender_key, sessionId := e.session_id, events := [e] }])
    []

/-- The oracle answers one _requestMissingSessionFromBackup call consumes, for
one (sender key, session id) group. -/
structure BackupOracle where
  getSessionResult : Except JsError (Option BackupSessionRecord)
  roomKeyFromBackup : Option RoomKeyFromBackup
  writeRoomKeyResult : Except JsError Bool
deriving Repr

/-- The body of the detached task started with log.wrapDetached("check key
backup", ...) in RoomEncryption._processDecryptionResults (RoomEncryption.js
lines 159-181), exactly as written in the source: when the source is Sync it
awaits a 10000 ms timeout, reads this._disposed once (returning if set), opens
a read transaction and probes hasSession for every group, drops the groups
whose session has arrived, and finally runs _requestMissingSessionFromBackup
for each remaining group; for other sources it runs the backup request for
every group immediately.  The task only runs when a session backup is
configured, so the requests are issued with sessionBackup = true.  Oracles:
disposed is the value of this._disposed when the task resumes after the
timeout; hasSessionNow answers the post-wait hasSession probes; oracle gives
each group's backup interaction. -/
def checkKeyBackup (source : DecryptionSource) (groups : List EventGroup)
    (disposed : Bool) (hasSessionNow : String → String → Bool)
    (oracle : String → String → BackupOracle) : List Act :=
  let requests := fun (gs : List EventGroup) =>
    gs.flatMap (fun g =>
      let o := oracle g.senderKey g.sessionId
      (requestMissingSessionFromBackup true g.senderKey g.sessionId
        o.getSessionResult o.roomKeyFromBackup o.writeRoomKeyResult).acts)
  if source = DecryptionSource.Sync then
    [Act.wait 10000, Act.checkDisposed disposed] ++
    (if disposed then []
     else
       [Act.openReadTxn]
       ++ groups.map (fun g => Act.hasSession g.senderKey g.sessionId)
       ++ requests (groups.filter (fun g => !(hasSessionNow g.senderKey g.sessionId))))
  else
    requests groups

/-- RoomEncryption._processDecryptionResults (RoomEncryption.js lines
137-182), exactly as written in the source: keeps the events whose error in
the errors map has code MEGOLM_NO_SESSION; if there are none it returns;
groups them by (sender key, session id); when the source is Sync it records
the missing-key event ids per group inside the caller's transaction; if no
session backup is configured it returns here; otherwise it starts the
detached check-key-backup task (checkKeyBackup).  The errors map itself is
never modified by this method. -/
def processDecryptionResults (events : List SyncEvent)
    (errors : List (String × String)) (source : DecryptionSource)
    (sessionBackup : Bool) (disposed : Bool)
    (hasSessionNow : String → String → Bool)
    (oracle : String → String → BackupOracle) : List Act :=
  let missingSessionEvents := events.filter
    (fun e => errors.lookup e.event_id == some "MEGOLM_NO_SESSION")
  if missingSessionEvents.isEmpty then []
  else
    let missingEventsBySession := groupEventsBySession missingSessionEvents
    let storeActs :=
      if source = DecryptionSource.Sync then
        missingEventsBySession.map (fun g =>
          Act.addMissingKeyEventIds g.senderKey g.sessionId
            (g.events.map (fun e => e.event_id)))
      else []
    if !sessionBackup then storeActs
    else storeActs ++ checkKeyBackup source missingEventsBySession disposed hasSessionNow oracle

/-- Acts at which the detached task suspends (every awaited storage, network
or clock operation). -/
def isSuspensionAct : Act → Bool
  | Act.wait _ => true
  | Act.getSession _ _ => true
  | Act.openReadTxn => true
  | Act.openReadWriteTxn => true
  | Act.hasSession _ _ => true
  | Act.writeRoomKey => true
  | Act.completeTxn => true
  | Act.notifyRoomKey _ => true
  | _ => false

/-- Acts that touch storage. -/
def touchesStorageAct : Act → Bool
  | Act.openReadTxn => true
  | Act.openReadWriteTxn => true
  | Act.hasSession _ _ => true
  | Act.writeRoomKey => true
  | Act.completeTxn => true
  | Act.abortTxn => true
  | Act.addMissingKeyEventIds _ _ _ => true
  | _ => false

/-- Whether an act is a read of the disposed flag. -/
def isCheckDisposedAct : Act → Bool
  | Act.checkDisposed _ => true
  | _ => false

/-- Decides whether a trace violates the discipline "after every suspension
point, the disposed flag is checked before storage is touched": scanning left
to right with a pending-suspension flag, a storage-touching act while a
suspension is pending and no disposed check has intervened is a violation. -/
def violatesDisposedDiscipline : List Act → Bool → Bool
  | [], _ => false
  | a :: rest, pending =>
    if isCheckDisposedAct a then violatesDisposedDiscipline rest false
    else if pending && touchesStorageAct a then true
    else violatesDisposedDiscipline rest (pending || isSuspensionAct a)

/-- One entry of the memberChanges map passed to
RoomEncryption.writeMemberChanges: the member's user id and the hasLeft /
hasJoined flags the orchestrator reads. -/
structure MemberChange where
  userId : String
  hasLeft : Bool
  hasJoined : Bool
deriving DecidableEq, Repr

/-- A RoomKeyMessage as produced by the megolm encryption engine; the
orchestrator reads session_id and chain_index for logging only. -/
structure RoomKeyMessage where
  session_id : String
  chain_index : Nat
deriving DecidableEq, Repr

/-- Actions of RoomEncryption.writeMemberChanges and
_addShareRoomKeyOperationForNewMembers, in program order, all performed inside
the caller's transaction. -/
inductive MemberAct where
  /-- this._megolmEncryption.discardOutboundSession(roomId, txn) -/
  | discardOutboundSession
  /-- txn.operations.add(operation) via _writeRoomKeyShareOperation, recording
  operation.userIds (none models the null sentinel) -/
  | writeOperation (userIds : Option (List String))
  /-- await this._deviceTracker.writeMemberChanges(room, memberChanges, txn) -/
  | deviceTrackerWriteMemberChanges
deriving DecidableEq, Repr

/-- RoomEncryption._addShareRoomKeyOperationForNewMembers (RoomEncryption.js
lines 309-323), exactly as written in the source: collects the user ids of the
member changes with hasJoined, asks the megolm encryption engine for a
RoomKeyMessage of the existing outbound session (the oracle
createRoomKeyMessage: none models a null return, meaning no outbound session);
if a message exists it persists a share operation scoped to exactly those user
ids and returns true, otherwise it writes nothing and returns false. -/
def addShareRoomKeyOperationForNewMembers (memberChanges : List MemberChange)
    (createRoomKeyMessage : Option RoomKeyMessage) : List MemberAct × Bool :=
  let userIds := (memberChanges.filter (fun m => m.hasJoined)).map (fun m => m.userId)
  match createRoomKeyMessage with
  | some _ => ([MemberAct.writeOperation (some userIds)], true)
  | none => ([], false)

/-- RoomEncryption.writeMemberChanges (RoomEncryption.js lines 84-99), exactly
as written in the source: if any member change has hasLeft, the outbound
session is discarded in the given transaction; if any member change has
hasJoined, _addShareRoomKeyOperationForNewMembers runs and its boolean return
becomes shouldFlush (otherwise shouldFlush stays undefined, modelled none);
the device tracker's member bookkeeping is always written; returns the action
trace and shouldFlush. -/
def writeMemberChanges (memberChanges : List MemberChange)
    (createRoomKeyMessage : Option RoomKeyMessage) :
    List MemberAct × Option Bool :=
  let discardActs :=
    if memberChanges.any (fun m => m.hasLeft) then [MemberAct.discardOutboundSession]
    else []
  let shareStep :=
    if memberChanges.any (fun m => m.hasJoined) then
      let r := addShareRoomKeyOperationForNewMembers memberChanges createRoomKeyMessage
      (r.1, some r.2)
    else ([], none)
  (discardActs ++ shareStep.1 ++ [MemberAct.deviceTrackerWriteMemberChanges], shareStep.2)

/-- A target device as returned by the device tracker: its owner's user id and
its device id. -/
structure Device where
  userId : String
  deviceId : String
deriving DecidableEq, Repr

/-- A durable share operation record as built by _writeRoomKeyShareOperation:
random id, type, scope (the room id) and the target user ids, where none
models the null sentinel meaning not yet resolved. -/
structure Operation where
  id : String
  type : String
  scope : String
  userIds : Option (List String)
deriving DecidableEq, Repr

/-- JavaScript Set insertion-order deduplication, as used for
Array.from(devices.reduce((set, device) => set.add(device.userId), new Set())). -/
def dedupKeepFirst (l : List String) : List String :=
  l.foldl (fun acc u => if acc.contains u then acc else acc ++ [u]) []

/-- Actions of RoomEncryption._processShareRoomKeyOperation, in program
order. -/
inductive OpAct where
  /-- await this._deviceTracker.trackRoom(room, log) -/
  | trackRoom
  /-- await this._deviceTracker.devicesForTrackedRoom(roomId, hsApi, log) -/
  | devicesForTrackedRoom
  /-- await this._deviceTracker.devicesForRoomMembers(roomId, userIds, hsApi, log) -/
  | devicesForRoomMembers (userIds : List String)
  /-- await this._updateOperationsStore(operations => operations.update(operation)),
  recording the operation's userIds at that point -/
  | updateOperation (userIds : Option (List String))
  /-- await this._sendMessagesToDevices(ENCRYPTED_TYPE, messages, hsApi, log),
  recording the devices the olm-encrypted messages target -/
  | sendMessages (devices : List Device)
  /-- await this._sendSharedMessageToDevices("org.matrix.room_key.withheld",
  withheldMessage, missingDevices, hsApi, log); the withheld message is built
  by createWithheldMessage(roomKeyMessage, code, reason) -/
  | sendWithheld (code reason : String) (devices : List Device)
  /-- await this._updateOperationsStore(operations => operations.remove(operation.id)) -/
  | removeOperation (id : String)
deriving DecidableEq, Repr

/-- The user-id list _processShareRoomKeyOperation works with: for the null
sentinel, the owners of every device of the tracked room in Set insertion
order; otherwise the operation's explicit list. -/
def resolvedUserIds (op : Operation) (trackedDevices : List Device) : List String :=
  match op.userIds with
  | none => dedupKeepFirst (trackedDevices.map (fun d => d.userId))
  | some uids => uids

/-- The device list _processShareRoomKeyOperation targets: for the null
sentinel, every device of the tracked room; otherwise the devices of the
operation's explicit members. -/
def resolvedDevices (op : Operation) (trackedDevices : List Device)
    (memberDevices : List String → List Device) : List Device :=
  match op.userIds with
  | none => trackedDevices
  | some uids => memberDevices uids

/-- RoomEncryption._processShareRoomKeyOperation (RoomEncryption.js lines
361-394), exactly as written in the source: tracks the room; if
operation.userIds is the null sentinel, resolves the devices of every tracked
member, overwrites operation.userIds with the deduplicated owner list and
persists that update, otherwise resolves the devices of the explicit member
list; olm-encrypts the room key per device (the oracle olmOk tells which
devices yielded a message); sends the encrypted messages; if some devices
yielded no message, first narrows the persisted operation.userIds to the users
among them that own a missing device, then sends the withheld notice
(m.no_olm, OTKs exhausted) to the missing devices; finally removes the
operation from the store. -/
def processShareRoomKeyOperation (op : Operation) (trackedDevices : List Device)
    (memberDevices : List String → List Device) (olmOk : Device → Bool) :
    List OpAct :=
  let userIds := resolvedUserIds op trackedDevices
  let devices := resolvedDevices op trackedDevices memberDevices
  let resolveActs :=
    match op.userIds with
    | none => [OpAct.trackRoom, OpAct.devicesForTrackedRoom,
               OpAct.updateOperation (some userIds)]
    | some uids => [OpAct.trackRoom, OpAct.devicesForRoomMembers uids]
  let missingDevices := devices.filter (fun d => !(olmOk d))
  let withheldActs :=
    if missingDevices.isEmpty then []
    else
      let unsentUserIds := userIds.filter
        (fun u => missingDevices.any (fun d => d.userId == u))
      [OpAct.updateOperation (some unsentUserIds),
       OpAct.sendWithheld "m.no_olm" "OTKs exhausted" missingDevices]
  resolveActs ++ [OpAct.sendMessages (devices.filter olmOk)] ++ withheldActs
    ++ [OpAct.removeOperation op.id]

/-- Acts of _processShareRoomKeyOperation that send to-device messages over
the network. -/
def isSendAct : OpAct → Bool
  | OpAct.sendMessages _ => true
  | OpAct.sendWithheld _ _ _ => true
  | _ => false

/-- Actions of RoomEncryption.flushPendingRoomKeyShares, in program order. -/
inductive FlushAct where
  /-- await this._storage.readTxn([operations]) followed by
  txn.operations.getAllByTypeAndScope("share_room_key", roomId) -/
  | loadFromStorage
  /-- await this._processShareRoomKeyOperation(operation, hsApi, log) -/
  | processOperation (op : Operation)
deriving DecidableEq, Repr

/-- The operation loop of RoomEncryption.flushPendingRoomKeyShares
(RoomEncryption.js lines 336-342), exactly as written in the source: walks the
operations in order; an operation whose type is not share_room_key is skipped
with continue; otherwise _processShareRoomKeyOperation runs (the oracle
processThrows tells whether it throws, which aborts the loop and propagates).
Returns the processing acts in order and whether the loop threw. -/
def flushLoop (processThrows : Operation → Bool) :
    List Operation → List FlushAct × Bool
  | [] => ([], false)
  | op :: rest =>
    if op.type ≠ "share_room_key" then flushLoop processThrows rest
    else if processThrows op then ([FlushAct.processOperation op], true)
    else
      let r := flushLoop processThrows rest
      (FlushAct.processOperation op :: r.1, r.2)

/-- Everything flushPendingRoomKeyShares makes observable: its action trace,
the value of this._isFlushingRoomKeyShares when the call returns, and whether
the call rethrows. -/
structure FlushResult where
  acts : List FlushAct
  finalFlag : Bool
  threw : Bool
deriving DecidableEq, Repr

/-- RoomEncryption.flushPendingRoomKeyShares (RoomEncryption.js lines
325-346), exactly as written in the source: if this._isFlushingRoomKeyShares
is already set the call returns immediately (the flag is left to the call that
owns it); otherwise the flag is set, the operations are taken from the
explicit argument or loaded from the operations store
(getAllByTypeAndScope("share_room_key", roomId), modelled by the storedOps
oracle), the loop runs, and the finally block clears the flag whether or not
the loop threw. -/
def flushPendingRoomKeyShares (entryFlag : Bool)
    (explicitOps : Option (List Operation)) (storedOps : List Operation)
    (processThrows : Operation → Bool) : FlushResult :=
  if entryFlag then { acts := [], finalFlag := true, threw := false }
  else
    let loadStep :=
      match explicitOps with
      | some ops => (([] : List FlushAct), ops)
      | none => ([FlushAct.loadFromStorage], storedOps)
    let r := flushLoop processThrows loadStep.2
    { acts := loadStep.1 ++ r.1, finalFlag := false, threw := r.2 }

/-- The operations a flush trace actually processed, in order. -/
def processedOps (acts : List FlushAct) : List Operation :=
  acts.filterMap (fun a =>
    match a with
    | FlushAct.processOperation op => some op
    | _ => none)

/-- C1: the claim states that every input event ends in exactly one of the
decrypted-results map or the errors map (redacted events excluded entirely),
and in particular that an event whose content algorithm is not the Megolm
algorithm is recorded as a per-event error AND filtered out of the valid
events handed to the decryption engine.  The code violates the second part:
the push onto validEvents is unconditional for non-redacted events (the else
branch is missing), so an unsupported-algorithm event is recorded in the
errors map and still handed to the decryption engine.  This theorem evaluates
the filter loop at the failing input: one non-redacted event with algorithm
"m.bad" lands in the errors map and in validEvents at the same time. -/
theorem prepareDecryptAll_unsupported_algorithm_not_filtered :
    prepareDecryptAllFilter [{ event_id := "$1", redacted_because := false,
                               unsigned_redacted_because := false,
                               algorithm := some "m.bad" }]
      = ([("$1", "Unsupported algorithm")],
         [{ event_id := "$1", redacted_because := false,
            unsigned_redacted_because := false, algorithm := some "m.bad" }]) := by
  rfl

/-- C3: the claim states that _shareNewRoomKey explicitly commits (completes)
the write transaction that persists the Operation before attempting any
network delivery.  The code never calls writeOpTxn.complete(): after the
successful write it proceeds directly to _processShareRoomKeyOperation.  This
theorem evaluates the embedding on the success path: the trace goes straight
from the operation write to the network phase and contains no completeTxn
action at all. -/
theorem shareNewRoomKey_never_commits_explicitly :
    shareNewRoomKey false
      = ([ShareAct.openOperationsReadWriteTxn, ShareAct.addOperation none,
          ShareAct.processOperation], false)
    ∧ ShareAct.completeTxn ∉ (shareNewRoomKey false).1 := by
  exact ⟨rfl, by decide⟩

/-- C4: the claim states that a backup HomeServerError with errcode
M_NOT_FOUND is benign and not logged at error level, while every other failure
is logged at error level.  The catch handler's condition is negated in the
code, so the branches are swapped: the M_NOT_FOUND failure is assigned to
log.error and raises the log level to Error, while any other failure merely
sets the not_found item and leaves the level untouched.  This theorem
evaluates the embedding at both failing inputs. -/
theorem backupCatch_branches_swapped :
    (requestMissingSessionFromBackup true "sk" "sid"
        (Except.error { name := "HomeServerError", errcode := some "M_NOT_FOUND" })
        none (Except.ok false)).level = LogLevel.Error
    ∧ (requestMissingSessionFromBackup true "sk" "sid"
        (Except.error { name := "HomeServerError", errcode := some "M_NOT_FOUND" })
        none (Except.ok false)).error_set = true
    ∧ (requestMissingSessionFromBackup true "sk" "sid"
        (Except.error { name := "ConnectionError", errcode := none })
        none (Except.ok false)).level = LogLevel.Base
    ∧ (requestMissingSessionFromBackup true "sk" "sid"
        (Except.error { name := "ConnectionError", errcode := none })
        none (Except.ok false)).not_found_set = true := by
  refine ⟨rfl, rfl, rfl, rfl⟩

/-- C2: for every backup record whose algorithm is the Megolm algorithm but
whose sender_key differs from the expected sender key, the method performs
nothing beyond the fetch itself: the key is never written to the inbound
group-session store (no read-write transaction is even opened), no retry
notification (notifyRoomKey) is triggered, the mismatch is recorded under
wrong_sender_key and the log level is raised to Warn, and the import is
aborted. -/
theorem backupRequest_wrong_sender_key_aborts
    (senderKey sessionId : String) (s : BackupSessionRecord)
    (rk : Option RoomKeyFromBackup) (w : Except JsError Bool)
    (halg : s.algorithm = some MEGOLM_ALGORITHM)
    (hmismatch : s.sender_key ≠ some senderKey) :
    (requestMissingSessionFromBackup true senderKey sessionId
        (Except.ok (some s)) rk w).acts = [Act.getSession senderKey sessionId]
    ∧ Act.writeRoomKey ∉ (requestMissingSessionFromBackup true senderKey sessionId
        (Except.ok (some s)) rk w).acts
    ∧ Act.openReadWriteTxn ∉ (requestMissingSessionFromBackup true senderKey sessionId
        (Except.ok (some s)) rk w).acts
    ∧ (∀ ids, Act.notifyRoomKey ids ∉ (requestMissingSessionFromBackup true senderKey
        sessionId (Except.ok (some s)) rk w).acts)
    ∧ (requestMissingSessionFromBackup true senderKey sessionId
        (Except.ok (some s)) rk w).level = LogLevel.Warn
    ∧ (requestMissingSessionFromBackup true senderKey sessionId
        (Except.ok (some s)) rk w).wrong_sender_key = s.sender_key := by
  simp [requestMissingSessionFromBackup, halg, hmismatch]

/-- Witness for backupRequest_wrong_sender_key_aborts at a concrete record
with sender_key "other" against expected sender key "sk". -/
theorem backupRequest_wrong_sender_key_aborts_witness :
    (requestMissingSessionFromBackup true "sk" "sid"
        (Except.ok (some { algorithm := some MEGOLM_ALGORITHM, sender_key := some "other" }))
        none (Except.ok true)).level = LogLevel.Warn
    ∧ Act.writeRoomKey ∉ (requestMissingSessionFromBackup true "sk" "sid"
        (Except.ok (some { algorithm := some MEGOLM_ALGORITHM, sender_key := some "other" }))
        none (Except.ok true)).acts :=
  ⟨(backupRequest_wrong_sender_key_aborts "sk" "sid"
      { algorithm := some MEGOLM_ALGORITHM, sender_key := some "other" }
      none (Except.ok true) rfl (by decide)).2.2.2.2.1,
   (backupRequest_wrong_sender_key_aborts "sk" "sid"
      { algorithm := some MEGOLM_ALGORITHM, sender_key := some "other" }
      none (Except.ok true) rfl (by decide)).2.1⟩

/-- Helper: with a backup configured, every run of
_requestMissingSessionFromBackup performs the backup fetch: the getSession act
for the requested (sender key, session id) is in its trace, whatever the
oracle answers. -/
theorem getSession_self_mem_backupRequest (sk sid : String)
    (r : Except JsError (Option BackupSessionRecord))
    (k : Option RoomKeyFromBackup) (w : Except JsError Bool) :
    Act.getSession sk sid ∈ (requestMissingSessionFromBackup true sk sid r k w).acts := by
  unfold requestMissingSessionFromBackup backupCatch
  repeat' split
  all_goals simp_all

/-- Helper: with a backup configured, the only getSession act a run of
_requestMissingSessionFromBackup can contain is the one for the requested
(sender key, session id). -/
theorem getSession_mem_backupRequest_eq (sk sid sk' sid' : String)
    (r : Except JsError (Option BackupSessionRecord))
    (k : Option RoomKeyFromBackup) (w : Except JsError Bool)
    (h : Act.getSession sk' sid' ∈ (requestMissingSessionFromBackup true sk sid r k w).acts) :
    sk' = sk ∧ sid' = sid := by
  unfold requestMissingSessionFromBackup backupCatch at h
  repeat' split at h
  all_goals simp_all

/-- C5 counterexample: the claim states that when a Sync-sourced event with an
unknown session is decrypted and no backup client is configured, a missing
megolm session notification fires.  At this concrete input (one Sync event
whose error entry is MEGOLM_NO_SESSION, sessionBackup = false) the whole run
of _processDecryptionResults is the single missing-key bookkeeping write: no
notifyMissingMegolmSession act occurs (and no backup fetch either), because
the method returns before the check-key-backup task when no backup is
configured.  The notification only fires inside
_requestMissingSessionFromBackup, which is never reached on this path. -/
theorem processDecryptionResults_no_notification_without_backup :
    processDecryptionResults
        [{ event_id := "$1", sender_key := "sk", session_id := "sid" }]
        [("$1", "MEGOLM_NO_SESSION")] DecryptionSource.Sync false false
        (fun _ _ => false)
        (fun _ _ => { getSessionResult := Except.ok none
                      roomKeyFromBackup := none
                      writeRoomKeyResult := Except.ok false })
      = [Act.addMissingKeyEventIds "sk" "sid" ["$1"]]
    ∧ Act.notifyMissingMegolmSession ∉ processDecryptionResults
        [{ event_id := "$1", sender_key := "sk", session_id := "sid" }]
        [("$1", "MEGOLM_NO_SESSION")] DecryptionSource.Sync false false
        (fun _ _ => false)
        (fun _ _ => { getSessionResult := Except.ok none
                      roomKeyFromBackup := none
                      writeRoomKeyResult := Except.ok false }) := by
  exact ⟨rfl, by decide⟩

/-- C5 (amended): when a Sync-sourced event referencing an unknown session id
is decrypted and no backup client is configured, the event's MEGOLM_NO_SESSION
error entry is left in the errors map untouched, its missing-key event ids are
recorded, and nothing else happens: every act of _processDecryptionResults is
an addMissingKeyEventIds bookkeeping write, so no backup call occurs and no
missing-megolm-session notification fires (the notification would only fire
inside _requestMissingSessionFromBackup, which is not reached on this path). -/
theorem processDecryptionResults_no_backup_only_bookkeeping
    (events : List SyncEvent) (errors : List (String × String))
    (source : DecryptionSource) (disposed : Bool)
    (hasNow : String → String → Bool) (oracle : String → String → BackupOracle) :
    ∀ a ∈ processDecryptionResults events errors source false disposed hasNow oracle,
      ∃ sk sid ids, a = Act.addMissingKeyEventIds sk sid ids := by
  intro a ha
  simp only [processDecryptionResults] at ha
  split at ha
  · simp at ha
  · simp only [Bool.not_false, if_true] at ha
    split at ha
    · obtain ⟨g, _, rfl⟩ := List.mem_map.mp ha
      exact ⟨_, _, _, rfl⟩
    · simp at ha

/-- Witness for processDecryptionResults_no_backup_only_bookkeeping at the
concrete Sync input with one MEGOLM_NO_SESSION event and no backup. -/
theorem processDecryptionResults_no_backup_only_bookkeeping_witness :
    ∃ sk sid ids,
      Act.addMissingKeyEventIds "sk" "sid" ["$1"] = Act.addMissingKeyEventIds sk sid ids :=
  processDecryptionResults_no_backup_only_bookkeeping
    [{ event_id := "$1", sender_key := "sk", session_id := "sid" }]
    [("$1", "MEGOLM_NO_SESSION")] DecryptionSource.Sync false
    (fun _ _ => false)
    (fun _ _ => { getSessionResult := Except.ok none
                  roomKeyFromBackup := none
                  writeRoomKeyResult := Except.ok false })
    (Act.addMissingKeyEventIds "sk" "sid" ["$1"]) (by decide)

/-- C8 counterexample: the claim states that after every suspension point the
detached backup-recovery task checks the disposed flag before touching
storage.  At this concrete input (Sync source, one missing group whose key has
not arrived, disposed = false, backup returning a matching Megolm record) the
task's trace violates that discipline: the only disposed check happens right
after the 10-second wait, and later suspension points (the read-transaction
open, the hasSession probe, the network getSession fetch) are followed by
storage accesses with no further disposed check. -/
theorem checkKeyBackup_violates_disposed_discipline :
    violatesDisposedDiscipline
      (checkKeyBackup DecryptionSource.Sync
        [{ senderKey := "sk", sessionId := "sid",
           events := [{ event_id := "$1", sender_key := "sk", session_id := "sid" }] }]
        false (fun _ _ => false)
        (fun _ _ =>
          { getSessionResult := Except.ok (some { algorithm := some MEGOLM_ALGORITHM
                                                  sender_key := some "sk" })
            roomKeyFromBackup := some { eventIds := ["$1"] }
            writeRoomKeyResult := Except.ok true }))
      false = true := by
  rfl

/-- C8 (amended): when the source is Sync, the detached check-key-backup task
first waits the fixed 10000 ms grace window and then reads the disposed flag
exactly once, before touching storage at all: if disposed is set the task
aborts cleanly (its trace ends with that check, so storage is never touched);
otherwise it re-checks which missing (sender key, session id) groups have
since arrived and requests from backup exactly the groups whose session is
still absent.  It does not re-check the disposed flag after later suspension
points. -/
theorem checkKeyBackup_sync_grace_window
    (groups : List EventGroup) (disposed : Bool)
    (hasNow : String → String → Bool) (oracle : String → String → BackupOracle) :
    (∃ rest, checkKeyBackup DecryptionSource.Sync groups disposed hasNow oracle
        = Act.wait 10000 :: Act.checkDisposed disposed :: rest)
    ∧ (disposed = true → checkKeyBackup DecryptionSource.Sync groups disposed hasNow oracle
        = [Act.wait 10000, Act.checkDisposed true])
    ∧ (disposed = false → ∀ g ∈ groups, hasNow g.senderKey g.sessionId = false →
        Act.getSession g.senderKey g.sessionId
          ∈ checkKeyBackup DecryptionSource.Sync groups disposed hasNow oracle)
    ∧ (∀ sk sid, Act.getSession sk sid
          ∈ checkKeyBackup DecryptionSource.Sync groups disposed hasNow oracle →
        ∃ g, g ∈ groups ∧ g.senderKey = sk ∧ g.sessionId = sid ∧ hasNow sk sid = false) := by
  refine ⟨?_, ?_, ?_, ?_⟩
  · cases disposed <;> exact ⟨_, rfl⟩
  · intro hd
    subst hd
    simp [checkKeyBackup]
  · intro hd g hg hsess
    subst hd
    simp [checkKeyBackup]
    exact ⟨g, ⟨hg, hsess⟩, getSession_self_mem_backupRequest _ _ _ _ _⟩
  · intro sk sid hmem
    cases disposed with
    | true => simp [checkKeyBackup] at hmem
    | false =>
        simp [checkKeyBackup] at hmem
        obtain ⟨g, ⟨hg, hfilt⟩, hact⟩ := hmem
        obtain ⟨h1, h2⟩ := getSession_mem_backupRequest_eq g.senderKey g.sessionId sk sid
          _ _ _ hact
        subst h1
        subst h2
        exact ⟨g, hg, rfl, rfl, hfilt⟩

/-- Witness for checkKeyBackup_sync_grace_window at one concrete missing group
whose key has not arrived, with disposed = false. -/
theorem checkKeyBackup_sync_grace_window_witness :
    Act.getSession "sk" "sid"
      ∈ checkKeyBackup DecryptionSource.Sync
          [{ senderKey := "sk", sessionId := "sid",
             events := [{ event_id := "$1", sender_key := "sk", session_id := "sid" }] }]
          false (fun _ _ => false)
          (fun _ _ => { getSessionResult := Except.ok none
                        roomKeyFromBackup := none
                        writeRoomKeyResult := Except.ok false }) :=
  (checkKeyBackup_sync_grace_window
      [{ senderKey := "sk", sessionId := "sid",
         events := [{ event_id := "$1", sender_key := "sk", session_id := "sid" }] }]
      false (fun _ _ => false)
      (fun _ _ => { getSessionResult := Except.ok none
                    roomKeyFromBackup := none
                    writeRoomKeyResult := Except.ok false })).2.2.1 rfl
    { senderKey := "sk", sessionId := "sid",
      events := [{ event_id := "$1", sender_key := "sk", session_id := "sid" }] }
    (by decide) rfl

/-- C6: for every call to writeMemberChanges, if any member change has
hasLeft the outbound session is discarded in the given transaction; if no
member change has hasLeft (a join alone) the outbound session is never
discarded; if any member change has hasJoined and the encryption engine
returns a RoomKeyMessage for the existing outbound session, exactly one
key-share operation is persisted, it is scoped to exactly the joining user
ids, and the call returns the truthy flush flag; and the device tracker's
member bookkeeping is always written, regardless of joins or leaves. -/
theorem writeMemberChanges_membership_policy
    (mcs : List MemberChange) (rkm : Option RoomKeyMessage) :
    (mcs.any (fun m => m.hasLeft) = true →
      MemberAct.discardOutboundSession ∈ (writeMemberChanges mcs rkm).1)
    ∧ (mcs.any (fun m => m.hasLeft) = false →
      MemberAct.discardOutboundSession ∉ (writeMemberChanges mcs rkm).1)
    ∧ (∀ m, mcs.any (fun m => m.hasJoined) = true → rkm = some m →
      ((writeMemberChanges mcs rkm).1.countP
          (fun a => match a with | MemberAct.writeOperation _ => true | _ => false)) = 1
      ∧ MemberAct.writeOperation
          (some ((mcs.filter (fun m => m.hasJoined)).map (fun m => m.userId)))
          ∈ (writeMemberChanges mcs rkm).1
      ∧ (writeMemberChanges mcs rkm).2 = some true)
    ∧ MemberAct.deviceTrackerWriteMemberChanges ∈ (writeMemberChanges mcs rkm).1 := by
  cases hL : mcs.any (fun m => m.hasLeft) <;>
    cases hJ : mcs.any (fun m => m.hasJoined) <;>
      cases rkm <;>
        simp [writeMemberChanges, addShareRoomKeyOperationForNewMembers, hL, hJ,
          List.countP_cons, List.countP_append]

/-- Witness for writeMemberChanges_membership_policy at a concrete change set
with one leaver and one joiner and an existing outbound session. -/
theorem writeMemberChanges_membership_policy_witness :
    MemberAct.discardOutboundSession
      ∈ (writeMemberChanges
          [{ userId := "@a", hasLeft := true, hasJoined := false },
           { userId := "@b", hasLeft := false, hasJoined := true }]
          (some { session_id := "sid", chain_index := 0 })).1
    ∧ (writeMemberChanges
          [{ userId := "@a", hasLeft := true, hasJoined := false },
           { userId := "@b", hasLeft := false, hasJoined := true }]
          (some { session_id := "sid", chain_index := 0 })).2 = some true :=
  ⟨(writeMemberChanges_membership_policy
      [{ userId := "@a", hasLeft := true, hasJoined := false },
       { userId := "@b", hasLeft := false, hasJoined := true }]
      (some { session_id := "sid", chain_index := 0 })).1 (by decide),
   ((writeMemberChanges_membership_policy
      [{ userId := "@a", hasLeft := true, hasJoined := false },
       { userId := "@b", hasLeft := false, hasJoined := true }]
      (some { session_id := "sid", chain_index := 0 })).2.2.1
      { session_id := "sid", chain_index := 0 } (by decide) rfl).2.2⟩

/-- C10: writeMemberChanges returns undefined (modelled none, a falsy value
distinct from false) when no member change has hasJoined, including when
members only left; when members joined but the encryption engine returns no
RoomKeyMessage (no existing outbound session) it returns false (some false)
and persists no operation; and a truthy return (some true) implies a share
operation was written. -/
theorem writeMemberChanges_return_value
    (mcs : List MemberChange) (rkm : Option RoomKeyMessage) :
    (mcs.any (fun m => m.hasJoined) = false → (writeMemberChanges mcs rkm).2 = none)
    ∧ (mcs.any (fun m => m.hasJoined) = true → rkm = none →
        (writeMemberChanges mcs rkm).2 = some false
        ∧ ∀ uids, MemberAct.writeOperation uids ∉ (writeMemberChanges mcs rkm).1)
    ∧ ((writeMemberChanges mcs rkm).2 = some true →
        ∃ uids, MemberAct.writeOperation uids ∈ (writeMemberChanges mcs rkm).1) := by
  cases hL : mcs.any (fun m => m.hasLeft) <;>
    cases hJ : mcs.any (fun m => m.hasJoined) <;>
      cases rkm <;>
        simp [writeMemberChanges, addShareRoomKeyOperationForNewMembers, hL, hJ]

/-- Witness for writeMemberChanges_return_value at a concrete change set where
one member left and nobody joined: the return value is undefined (none). -/
theorem writeMemberChanges_return_value_witness :
    (writeMemberChanges [{ userId := "@a", hasLeft := true, hasJoined := false }]
        none).2 = none :=
  (writeMemberChanges_return_value
      [{ userId := "@a", hasLeft := true, hasJoined := false }] none).1 (by decide)

/-- C7: for every operation processed by _processShareRoomKeyOperation: when
userIds is the null sentinel, the resolved owner list of every device of the
tracked room is persisted to the operations store before any message is sent
(the update act lies in the prefix of the trace before the first send act);
when some devices yielded no olm message, the trace ends with the withheld
notice (m.no_olm, OTKs exhausted) to exactly those missing devices followed by
the operation removal, and an update act narrowing the stored userIds to the
users owning a missing device occurs before that notice; and the last act is
always the removal of the operation from durable storage, even when devices
were withheld. -/
theorem processShareRoomKeyOperation_spec
    (op : Operation) (trackedDevices : List Device)
    (memberDevices : List String → List Device) (olmOk : Device → Bool) :
    (op.userIds = none →
      OpAct.updateOperation (some (resolvedUserIds op trackedDevices))
        ∈ (processShareRoomKeyOperation op trackedDevices memberDevices olmOk).takeWhile
            (fun a => !(isSendAct a)))
    ∧ ((resolvedDevices op trackedDevices memberDevices).filter (fun d => !(olmOk d)) ≠ [] →
      ∃ pre, processShareRoomKeyOperation op trackedDevices memberDevices olmOk
          = pre ++ [OpAct.sendWithheld "m.no_olm" "OTKs exhausted"
                      ((resolvedDevices op trackedDevices memberDevices).filter
                        (fun d => !(olmOk d))),
                    OpAct.removeOperation op.id]
        ∧ OpAct.updateOperation (some ((resolvedUserIds op trackedDevices).filter
            (fun u => ((resolvedDevices op trackedDevices memberDevices).filter
               (fun d => !(olmOk d))).any (fun d => d.userId == u)))) ∈ pre)
    ∧ (processShareRoomKeyOperation op trackedDevices memberDevices olmOk).getLast?
        = some (OpAct.removeOperation op.id) := by
  refine ⟨?_, ?_, ?_⟩
  · intro hnone
    simp [processShareRoomKeyOperation, hnone, List.takeWhile, isSendAct]
  · intro hmiss
    have hne : ((resolvedDevices op trackedDevices memberDevices).filter
        (fun d => !(olmOk d))).isEmpty = false := by
      simpa [List.isEmpty_iff] using hmiss
    cases hu : op.userIds with
    | none =>
        refine ⟨[OpAct.trackRoom, OpAct.devicesForTrackedRoom,
          OpAct.updateOperation (some (resolvedUserIds op trackedDevices)),
          OpAct.sendMessages ((resolvedDevices op trackedDevices memberDevices).filter olmOk),
          OpAct.updateOperation (some ((resolvedUserIds op trackedDevices).filter
            (fun u => ((resolvedDevices op trackedDevices memberDevices).filter
               (fun d => !(olmOk d))).any (fun d => d.userId == u))))], ?_, by simp⟩
        simp [processShareRoomKeyOperation, hu, hne, resolvedUserIds, resolvedDevices]
        split
        · rename_i hall
          have hnil : List.filter (fun d => !olmOk d) trackedDevices = [] := by
            rw [List.filter_eq_nil_iff]
            intro a ha
            simp [hall a ha]
          simp [resolvedDevices, hu, hnil] at hmiss
        · simp
    | some uids =>
        refine ⟨[OpAct.trackRoom, OpAct.devicesForRoomMembers uids,
          OpAct.sendMessages ((resolvedDevices op trackedDevices memberDevices).filter olmOk),
          OpAct.updateOperation (some ((resolvedUserIds op trackedDevices).filter
            (fun u => ((resolvedDevices op trackedDevices memberDevices).filter
               (fun d => !(olmOk d))).any (fun d => d.userId == u))))], ?_, by simp⟩
        simp [processShareRoomKeyOperation, hu, hne, resolvedUserIds, resolvedDevices]
        split
        · rename_i hall
          have hnil : List.filter (fun d => !olmOk d) (memberDevices uids) = [] := by
            rw [List.filter_eq_nil_iff]
            intro a ha
            simp [hall a ha]
          simp [resolvedDevices, hu, hnil] at hmiss
        · simp
  · cases hu : op.userIds <;>
      simp [processShareRoomKeyOperation, hu] <;>
        split <;> simp [List.getLast?_concat]

/-- Witness for processShareRoomKeyOperation_spec at a concrete unresolved
operation over two tracked devices, of which the second yields no olm
message. -/
theorem processShareRoomKeyOperation_spec_witness :
    (OpAct.updateOperation (some (resolvedUserIds
        { id := "1", type := "share_room_key", scope := "!r", userIds := none }
        [{ userId := "@a", deviceId := "D1" }, { userId := "@b", deviceId := "D2" }]))
      ∈ (processShareRoomKeyOperation
          { id := "1", type := "share_room_key", scope := "!r", userIds := none }
          [{ userId := "@a", deviceId := "D1" }, { userId := "@b", deviceId := "D2" }]
          (fun _ => []) (fun d => d.deviceId == "D1")).takeWhile
          (fun a => !(isSendAct a)))
    ∧ (∃ pre, processShareRoomKeyOperation
          { id := "1", type := "share_room_key", scope := "!r", userIds := none }
          [{ userId := "@a", deviceId := "D1" }, { userId := "@b", deviceId := "D2" }]
          (fun _ => []) (fun d => d.deviceId == "D1")
          = pre ++ [OpAct.sendWithheld "m.no_olm" "OTKs exhausted"
                      ((resolvedDevices
                        { id := "1", type := "share_room_key", scope := "!r", userIds := none }
                        [{ userId := "@a", deviceId := "D1" }, { userId := "@b", deviceId := "D2" }]
                        (fun _ => [])).filter (fun d => !((fun d => d.deviceId == "D1") d))),
                    OpAct.removeOperation "1"]
        ∧ OpAct.updateOperation (some ((resolvedUserIds
              { id := "1", type := "share_room_key", scope := "!r", userIds := none }
              [{ userId := "@a", deviceId := "D1" }, { userId := "@b", deviceId := "D2" }]).filter
            (fun u => ((resolvedDevices
              { id := "1", type := "share_room_key", scope := "!r", userIds := none }
              [{ userId := "@a", deviceId := "D1" }, { userId := "@b", deviceId := "D2" }]
              (fun _ => [])).filter (fun d => !((fun d => d.deviceId == "D1") d))).any
              (fun d => d.userId == u)))) ∈ pre) :=
  ⟨(processShareRoomKeyOperation_spec
      { id := "1", type := "share_room_key", scope := "!r", userIds := none }
      [{ userId := "@a", deviceId := "D1" }, { userId := "@b", deviceId := "D2" }]
      (fun _ => []) (fun d => d.deviceId == "D1")).1 rfl,
   (processShareRoomKeyOperation_spec
      { id := "1", type := "share_room_key", scope := "!r", userIds := none }
      [{ userId := "@a", deviceId := "D1" }, { userId := "@b", deviceId := "D2" }]
      (fun _ => []) (fun d => d.deviceId == "D1")).2.1 (by decide)⟩

/-- Helper: every operation the flush loop processes has type
share_room_key — operations of any other type are skipped with continue. -/
theorem flushLoop_processed_valid (p : Operation → Bool) (ops : List Operation)
    (op : Operation) (h : FlushAct.processOperation op ∈ (flushLoop p ops).1) :
    op.type = "share_room_key" := by
  induction ops with
  | nil => simp [flushLoop] at h
  | cons o rest ih =>
      simp only [flushLoop] at h
      split at h
      · exact ih h
      · rename_i ht
        rw [not_not] at ht
        split at h
        · simp only [List.mem_singleton, FlushAct.processOperation.injEq] at h
          subst h
          exact ht
        · simp only [List.mem_cons, FlushAct.processOperation.injEq] at h
          rcases h with h | h
          · subst h
            exact ht
          · exact ih h

/-- Helper: the operations the flush loop processes form (in order) a prefix
of its input filtered to the share_room_key type: processing is strictly
serial and stops at the first operation whose processing throws. -/
theorem flushLoop_processed_isPrefix (p : Operation → Bool) (ops : List Operation) :
    processedOps (flushLoop p ops).1
      <+: ops.filter (fun op => op.type == "share_room_key") := by
  induction ops with
  | nil => simp [flushLoop, processedOps]
  | cons o rest ih =>
      simp only [flushLoop]
      by_cases ht : o.type = "share_room_key"
      · rw [if_neg (by simp [ht])]
        rw [List.filter_cons_of_pos (by simp [ht])]
        by_cases hp : p o
        · rw [if_pos hp]
          refine ⟨rest.filter (fun op => op.type == "share_room_key"), ?_⟩
          simp [processedOps]
        · rw [if_neg hp]
          obtain ⟨t, htp⟩ := ih
          exact ⟨t, by simp [processedOps] at htp ⊢; exact htp⟩
      · rw [if_pos (by simp [ht])]
        rw [List.filter_cons_of_neg (by simp [ht])]
        exact ih

/-- Helper: when no share_room_key operation's processing throws, the flush
loop processes exactly the share_room_key operations of its input, in order. -/
theorem flushLoop_processed_all (p : Operation → Bool) (ops : List Operation)
    (hnothrow : ∀ op ∈ ops, p op = false) :
    processedOps (flushLoop p ops).1
      = ops.filter (fun op => op.type == "share_room_key") := by
  induction ops with
  | nil => simp [flushLoop, processedOps]
  | cons o rest ih =>
      have ho : p o = false := hnothrow o (by simp)
      have hrest : ∀ op ∈ rest, p op = false := fun op hop => hnothrow op (by simp [hop])
      simp only [flushLoop]
      by_cases ht : o.type = "share_room_key"
      · rw [if_neg (by simp [ht]), if_neg (by simp [ho]),
          List.filter_cons_of_pos (by simp [ht])]
        simp [processedOps] at ih ⊢
        exact ih hrest
      · rw [if_pos (by simp [ht]), List.filter_cons_of_neg (by simp [ht])]
        exact ih hrest

/-- C9: flushPendingRoomKeyShares is a silent no-op while another flush is in
flight (the re-entrancy flag at entry makes it return without any act); when
it runs, the re-entrancy flag is cleared when the call finishes even if
processing an operation throws (the finally block); every operation it
processes has type share_room_key, so operations of any other type are
silently skipped — neither processed nor removed — both when an explicit
operations list is supplied and when operations are loaded from storage; and
processing is strictly serial: the processed operations form, in order, a
prefix of the used operation list filtered to the share_room_key type,
stopping at the first throwing one, the whole filtered list when nothing
throws. -/
theorem flushPendingRoomKeyShares_spec
    (entryFlag : Bool) (explicitOps : Option (List Operation))
    (storedOps : List Operation) (processThrows : Operation → Bool) :
    (entryFlag = true →
      (flushPendingRoomKeyShares entryFlag explicitOps storedOps processThrows).acts = [])
    ∧ (entryFlag = false →
      (flushPendingRoomKeyShares entryFlag explicitOps storedOps processThrows).finalFlag
        = false)
    ∧ (∀ op, FlushAct.processOperation op
          ∈ (flushPendingRoomKeyShares entryFlag explicitOps storedOps processThrows).acts →
        op.type = "share_room_key")
    ∧ processedOps
          (flushPendingRoomKeyShares entryFlag explicitOps storedOps processThrows).acts
        <+: (explicitOps.getD storedOps).filter (fun op => op.type == "share_room_key")
    ∧ (entryFlag = false → (∀ op ∈ explicitOps.getD storedOps, processThrows op = false) →
        processedOps
            (flushPendingRoomKeyShares entryFlag explicitOps storedOps processThrows).acts
          = (explicitOps.getD storedOps).filter (fun op => op.type == "share_room_key")) := by
  cases entryFlag with
  | true =>
      refine ⟨fun _ => rfl, by simp, ?_, ?_, by simp⟩
      · intro op h
        simp [flushPendingRoomKeyShares] at h
      · simp [flushPendingRoomKeyShares, processedOps]
  | false =>
      cases explicitOps with
      | none =>
          refine ⟨by simp, fun _ => rfl, ?_, ?_, ?_⟩
          · intro op h
            simp only [flushPendingRoomKeyShares, if_neg (by simp : ¬(false = true)),
              List.mem_cons, List.mem_append] at h
            rcases h with h | h
            · exact absurd h (by simp)
            · exact flushLoop_processed_valid processThrows storedOps op h
          · simpa [flushPendingRoomKeyShares, processedOps]
              using flushLoop_processed_isPrefix processThrows storedOps
          · intro _ hnothrow
            simpa [flushPendingRoomKeyShares, processedOps]
              using flushLoop_processed_all processThrows storedOps (by simpa using hnothrow)
      | some ops =>
          refine ⟨by simp, fun _ => rfl, ?_, ?_, ?_⟩
          · intro op h
            simp only [flushPendingRoomKeyShares, if_neg (by simp : ¬(false = true))] at h
            simp only [List.nil_append] at h
            exact flushLoop_processed_valid processThrows ops op h
          · simpa [flushPendingRoomKeyShares, processedOps]
              using flushLoop_processed_isPrefix processThrows ops
          · intro _ hnothrow
            simpa [flushPendingRoomKeyShares, processedOps]
              using flushLoop_processed_all processThrows ops (by simpa using hnothrow)

/-- Witness for flushPendingRoomKeyShares_spec: a running flush (flag set at
entry) leaves a concrete operation list untouched, and a clean run over one
valid and one foreign-typed operation processes exactly the valid one. -/
theorem flushPendingRoomKeyShares_spec_witness :
    (flushPendingRoomKeyShares true
        (some [{ id := "1", type := "share_room_key", scope := "!r", userIds := none }])
        [] (fun _ => false)).acts = []
    ∧ processedOps (flushPendingRoomKeyShares false
        (some [{ id := "1", type := "share_room_key", scope := "!r", userIds := none },
               { id := "2", type := "other", scope := "!r", userIds := none }])
        [] (fun _ => false)).acts
      = [{ id := "1", type := "share_room_key", scope := "!r", userIds := none }] :=
  ⟨(flushPendingRoomKeyShares_spec true
      (some [{ id := "1", type := "share_room_key", scope := "!r", userIds := none }])
      [] (fun _ => false)).1 rfl,
   by
    have h := (flushPendingRoomKeyShares_spec false
      (some [{ id := "1", type := "share_room_key", scope := "!r", userIds := none },
             { id := "2", type := "other", scope := "!r", userIds := none }])
      [] (fun _ => false)).2.2.2.2 rfl (by decide)
    simpa using h⟩
